import Mathlib

/-!
Verification development for the siu-autotrade-gui trading relay.

The Python sources are shallowly embedded:
* string handling from the webhook router (`strip`, `upper`, `lower`,
  `endswith`, slicing) is modelled on `List Char` under `String`;
* float quantities are modelled as rationals; because the kernel cannot
  reduce `Rat.add`/`Rat.mul`, executable arithmetic goes through
  `mkRat`-based helpers (`qadd`, `qmul`, `qneg`, `qabs`, `qmin`) that are
  proved equal to the ordinary field operations;
* the exchange is an oracle (`Env`) answering position queries and order
  placements in call order, while a `Trace` records every Gateway call
  the server issues.
-/

/-- The whitespace characters removed by the Python `str.strip` method:
the code points for which Python `str.isspace` is true (U+0009 to U+000D,
U+001C to U+001F, space, next line, no-break space, ogham space mark, the
U+2000 to U+200A spaces, line and paragraph separator, narrow no-break
space, medium mathematical space and ideographic space). -/
def pySpace (c : Char) : Bool :=
  let n := c.toNat
  (9 ≤ n && n ≤ 13) || (28 ≤ n && n ≤ 31) || n == 32 || n == 133 || n == 160 ||
  n == 5760 || (8192 ≤ n && n ≤ 8202) || n == 8232 || n == 8233 || n == 8239 ||
  n == 8287 || n == 12288

/-- Lower-case/upper-case letter pairs of the ASCII alphabet, used to model
the Python `str.upper` and `str.lower` methods on the inputs this server
handles. -/
def caseMap : List (Char × Char) :=
  [('a', 'A'), ('b', 'B'), ('c', 'C'), ('d', 'D'), ('e', 'E'), ('f', 'F'),
   ('g', 'G'), ('h', 'H'), ('i', 'I'), ('j', 'J'), ('k', 'K'), ('l', 'L'),
   ('m', 'M'), ('n', 'N'), ('o', 'O'), ('p', 'P'), ('q', 'Q'), ('r', 'R'),
   ('s', 'S'), ('t', 'T'), ('u', 'U'), ('v', 'V'), ('w', 'W'), ('x', 'X'),
   ('y', 'Y'), ('z', 'Z')]

/-- Upper-case a single character, as Python `str.upper` does on ASCII. -/
def upcaseChar (c : Char) : Char :=
  (((caseMap.find? fun q => q.1 == c).map fun q => q.2).getD c)

/-- Lower-case a single character, as Python `str.lower` does on ASCII. -/
def lowcaseChar (c : Char) : Char :=
  (((caseMap.find? fun q => q.2 == c).map fun q => q.1).getD c)

/-- Python `str.strip` on a character list: drop whitespace from both ends. -/
def stripL (l : List Char) : List Char :=
  List.rdropWhile pySpace (List.dropWhile pySpace l)

/-- Python `str.strip`. -/
def pyStrip (s : String) : String := ⟨stripL s.data⟩

/-- Python `str.upper`. -/
def pyUpper (s : String) : String := ⟨s.data.map upcaseChar⟩

/-- Python `str.lower`. -/
def pyLower (s : String) : String := ⟨s.data.map lowcaseChar⟩

/-- Python `str.endswith`. -/
def pyEndsWith (s suf : String) : Bool := suf.data.isSuffixOf s.data

/-- Python slicing `s[:-n]` for `n` at most the length. -/
def pyDropRight (s : String) (n : Nat) : String := ⟨s.data.rdrop n⟩

/-- Embeds `normalize_symbol` from `src/server.py`: unify a TradingView
symbol spelling into the Bitget UMCBL spelling. -/
def normalize_symbol (sym : String) : String :=
  if sym = "" then "BTCUSDT_UMCBL"
  else
    let s := pyUpper (pyStrip sym)
    if pyEndsWith s "_UMCBL" then s
    else
      let s2 := if pyEndsWith s ".P" then pyDropRight s 2 else s
      if pyEndsWith s2 "USDT" then s2 ++ "_UMCBL" else s2

/-- Rational addition, computed through `mkRat`. -/
def qadd (a b : ℚ) : ℚ := mkRat (a.num * (b.den : ℤ) + b.num * (a.den : ℤ)) (a.den * b.den)

/-- Rational multiplication, computed through `mkRat`. -/
def qmul (a b : ℚ) : ℚ := mkRat (a.num * b.num) (a.den * b.den)

/-- Rational negation, computed through `mkRat`. -/
def qneg (a : ℚ) : ℚ := mkRat (-a.num) a.den

/-- Rational absolute value, computed through `mkRat`. -/
def qabs (a : ℚ) : ℚ := mkRat (Int.ofNat a.num.natAbs) a.den

/-- Rational minimum as an if-then-else. -/
def qmin (a b : ℚ) : ℚ := if a ≤ b then a else b

/-- Rounding of `x * 10^6` to the nearest integer, ties to even: the
rounding performed by the six-decimal-place Python format used in `_fmt_qty`. -/
def roundHalfEven6 (x : ℚ) : ℤ :=
  let n := x.num * 1000000
  let d : ℤ := (x.den : ℤ)
  let q := Int.fdiv n d
  let r := n - d * q
  if 2 * r < d then q else if d < 2 * r then q + 1 else if q % 2 = 0 then q else q + 1

/-- Numeric value of the string produced by `_fmt_qty` in `src/server.py`:
formatting with six decimal places rounds the quantity to the nearest
multiple of 10⁻⁶ (ties to even); stripping trailing zeros does not change
the value. -/
def fmt_qty (x : ℚ) : ℚ := mkRat (roundHalfEven6 x) 1000000

/-- An order recorded by `DemoExchange` (class `Order` in `src/bitget.py`). -/
structure DOrder where
  symbol : String
  side : String
  otype : String
  size : ℚ
  price : ℚ
  reduce_only : Bool
  status : String
deriving DecidableEq

/-- A fill recorded by `DemoExchange` (class `Fill` in `src/bitget.py`). -/
structure DFill where
  symbol : String
  side : String
  size : ℚ
  price : ℚ
deriving DecidableEq

/-- The mutable state of a `DemoExchange` instance: mark price, the
per-symbol net position (positive long, negative short), the recorded
orders and the recorded fills. -/
structure DemoState where
  mark_price : ℚ
  positions : String → ℚ
  orders : List DOrder
  fills : List DFill

/-- Embeds `DemoExchange.place_market_order` from `src/bitget.py`.  The
order and the fill are always recorded; the position update mirrors the
Python code exactly, including the reduce-only branch. -/
def place_market_order (st : DemoState) (symbol side : String) (size : ℚ)
    (reduce_only : Bool) : DemoState :=
  let price := st.mark_price
  let order : DOrder := ⟨symbol, pyUpper side, "MARKET", size, price, reduce_only, "filled"⟩
  let fill : DFill := ⟨symbol, pyUpper side, size, price⟩
  let pos := st.positions symbol
  let delta := if pyUpper side = "BUY" then size else qneg size
  let positions2 :=
    if reduce_only then
      if qmul pos delta < 0 then
        let new_pos := qadd pos delta
        let new_pos2 := if (0 < pos ∧ 0 < new_pos) ∨ (pos < 0 ∧ new_pos < 0)
          then (0:ℚ) else new_pos
        fun x => if x = symbol then new_pos2 else st.positions x
      else st.positions
    else
      fun x => if x = symbol then qadd pos delta else st.positions x
  { st with positions := positions2,
            orders := st.orders ++ [order],
            fills := st.fills ++ [fill] }

/-- Embeds `DemoExchange.close_all_positions` from `src/bitget.py`. -/
def close_all_positions (st : DemoState) (symbol : String) : DemoState :=
  let pos := st.positions symbol
  if pos = 0 then st
  else
    let side := if 0 < pos then "SELL" else "BUY"
    place_market_order st symbol side (qabs pos) true

/-- Embeds `DemoExchange.get_positions` from `src/bitget.py` (the size
field of the returned record). -/
def get_positions (st : DemoState) (symbol : String) : ℚ := st.positions symbol

/-- A concrete demo-exchange state holding a long position of 10 on
BTCUSDT, used as evaluation input. -/
def demoLong10 : DemoState :=
  ⟨100, fun x => if x = "BTCUSDT" then 10 else 0, [], []⟩

/-- Outcome of one `get_hedge_detail` call: the reported long and short
sizes, or an exception.  `errHttp` is `requests.HTTPError` (raised by
`raise_for_status`); `errOther` is any exception outside
`requests.RequestException`, such as `urllib3.ProtocolError` or the
`RuntimeError` that `_request` raises after a response-less retry run. -/
inductive DetailRes where
  | ok (longSz shortSz : ℚ)
  | errHttp
  | errOther
deriving DecidableEq

/-- Outcome of one order placement.  `errHttp` is `requests.HTTPError`,
`errReqOther` any other `requests.RequestException` (connection error,
timeout), `errOther` an exception outside `requests.RequestException`. -/
inductive OrderRes where
  | ok
  | errHttp
  | errReqOther
  | errOther
deriving DecidableEq

/-- The exchange oracle: answers for position queries and orders in call
order. -/
structure Env where
  details : Nat → DetailRes
  orders : Nat → OrderRes

/-- One Gateway call issued by the server.  Close sizes carry the numeric
value of the `_fmt_qty` string; open sizes carry the raw string taken from
the webhook payload, which `src/server.py` forwards untouched. -/
inductive GatewayCall where
  | getDetail (symbol : String)
  | closeLong (symbol : String) (size : ℚ)
  | closeShort (symbol : String) (size : ℚ)
  | openLong (symbol : String) (size : String) (otype : String)
  | openShort (symbol : String) (size : String) (otype : String)
deriving DecidableEq

/-- Whether a Gateway call opens a position (`open_long` / `open_short`,
the non-reduce-only orders). -/
def GatewayCall.isOpen : GatewayCall → Bool
  | .openLong _ _ _ => true
  | .openShort _ _ _ => true
  | _ => false

/-- The record of the Gateway calls made while serving one request,
together with how many position queries and how many orders happened. -/
structure Trace where
  calls : List GatewayCall
  nDetails : Nat
  nOrders : Nat
deriving DecidableEq

/-- The empty trace at the start of a request. -/
def Trace.empty : Trace := ⟨[], 0, 0⟩

/-- Perform a position query against the oracle and record it. -/
def getDetail (env : Env) (tr : Trace) (symbol : String) : DetailRes × Trace :=
  (env.details tr.nDetails,
   ⟨tr.calls ++ [GatewayCall.getDetail symbol], tr.nDetails + 1, tr.nOrders⟩)

/-- Place an order against the oracle and record it. -/
def placeOrder (env : Env) (tr : Trace) (c : GatewayCall) : OrderRes × Trace :=
  (env.orders tr.nOrders, ⟨tr.calls ++ [c], tr.nDetails, tr.nOrders + 1⟩)

/-- Result value of `ensure_close_full` in `src/server.py`:
`okSkipped` is the early return with `skipped/already_zero`;
`okClosed before after` the success return carrying `size_before` and
`size_after`; `notFlat` the final failure dictionary whose `error` field
is the string `close_not_flat`. -/
inductive CloseResult where
  | okSkipped
  | okClosed (before after : ℚ)
  | notFlat
deriving DecidableEq

/-- The `ok` field of the dictionary returned by `ensure_close_full`. -/
def CloseResult.okFlag : CloseResult → Bool
  | .notFlat => false
  | _ => true

/-- Control outcome of one iteration of the `ensure_close_full` loop:
finish with a result, let an exception escape, or go to the next
attempt. -/
inductive StepOut where
  | finish (r : CloseResult)
  | raised
  | again
deriving DecidableEq

/-- The sizes used by the re-check after a close attempt: the freshly
queried ones when the query succeeded, otherwise the sizes from the first
query of the attempt (the `except` fallback in `ensure_close_full`). -/
def repollSizes (d2 : DetailRes) (longSz shortSz : ℚ) : ℚ × ℚ :=
  match d2 with
  | DetailRes.ok l s => (l, s)
  | _ => (longSz, shortSz)

/-- One attempt of the `ensure_close_full` retry loop of `src/server.py`:
query the position (any exception retries), close the still-open side with
a reduce-only market order sized by the reported exposure (early return
when it is already not positive; a `requests.RequestException` is caught
and falls through to the re-check, any other exception escapes), then
re-query and return success when the closed side is reported not
positive. -/
def ecl_attempt (env : Env) (symbol side : String) (tr : Trace) : StepOut × Trace :=
  match getDetail env tr symbol with
  | (DetailRes.errHttp, tr1) => (StepOut.again, tr1)
  | (DetailRes.errOther, tr1) => (StepOut.again, tr1)
  | (DetailRes.ok longSz shortSz, tr1) =>
    let closePart : Option (OrderRes × Trace) :=
      if side = "LONG" then
        if longSz ≤ 0 then none
        else some (placeOrder env tr1 (GatewayCall.closeLong symbol (fmt_qty longSz)))
      else
        if shortSz ≤ 0 then none
        else some (placeOrder env tr1 (GatewayCall.closeShort symbol (fmt_qty shortSz)))
    match closePart with
    | none => (StepOut.finish CloseResult.okSkipped, tr1)
    | some (ores, tr2) =>
      if ores = OrderRes.errOther then (StepOut.raised, tr2)
      else
        let d2 := getDetail env tr2 symbol
        let tr3 := d2.2
        let sizes := repollSizes d2.1 longSz shortSz
        if side = "LONG" ∧ sizes.1 ≤ 0 then
          (StepOut.finish (CloseResult.okClosed longSz sizes.1), tr3)
        else if side = "SHORT" ∧ sizes.2 ≤ 0 then
          (StepOut.finish (CloseResult.okClosed shortSz sizes.2), tr3)
        else (StepOut.again, tr3)

/-- The bounded retry loop of `ensure_close_full`: when the attempts are
exhausted the result is the `close_not_flat` failure.  `Except.error`
carries an exception escaping the loop. -/
def ecl_loop (env : Env) (symbol side : String) : Nat → Trace → (Except Unit CloseResult) × Trace
  | 0, tr => (Except.ok CloseResult.notFlat, tr)
  | Nat.succ fuel, tr =>
    match ecl_attempt env symbol side tr with
    | (StepOut.finish r, tr2) => (Except.ok r, tr2)
    | (StepOut.raised, tr2) => (Except.error (), tr2)
    | (StepOut.again, tr2) => ecl_loop env symbol side fuel tr2

/-- Embeds `ensure_close_full` from `src/server.py` with its default
budget of `max_retry = 10` attempts. -/
def ensure_close_full (env : Env) (symbol side : String) (tr : Trace) :
    (Except Unit CloseResult) × Trace :=
  ecl_loop env symbol side 10 tr

/-- An inbound webhook payload: each field is present with a string value
or absent.  `otype` is the JSON field named `type`. -/
structure Payload where
  secret : Option String
  route : Option String
  exchange : Option String
  symbol : Option String
  target_side : Option String
  otype : Option String
  size : Option String

/-- The HTTP response returned by the `/tv` handler.  `uncaught` stands
for an exception escaping the handler (the open route catches only
`requests.HTTPError`). -/
inductive Resp where
  | badJson
  | unauthorized
  | unsupportedExchange
  | badTargetSide
  | unsupportedRoute
  | okOpen
  | okReverse (closed : CloseResult)
  | closeFailed (detail : CloseResult)
  | bitgetHttp
  | exception
  | uncaught
deriving DecidableEq

/-- The body of the `/tv` handler (`tv` in `src/server.py`) for a payload
that parsed as JSON.  A missing JSON field gets the same default as
`payload.get` in Python; `str(None)` is the string `None` for the secret.
The take-profit watch set and logging have no effect on responses or
Gateway calls and are omitted. -/
def tv_handle (env : Env) (webhook_secret : String) (p : Payload) : Resp × Trace :=
    if p.secret.getD "None" = webhook_secret then
      let route := pyStrip (p.route.getD "")
      let exchange := pyLower (p.exchange.getD "bitget")
      let raw_symbol := pyStrip (p.symbol.getD "BTCUSDT_UMCBL")
      let symbol := normalize_symbol raw_symbol
      let target_side := pyUpper (p.target_side.getD "")
      let order_type := pyLower (p.otype.getD "MARKET")
      let size := p.size.getD "0.001"
      if exchange = "bitget" then
       if route = "order.open" then
        match getDetail env Trace.empty symbol with
        | (DetailRes.errHttp, tr) => (Resp.bitgetHttp, tr)
        | (DetailRes.errOther, tr) => (Resp.uncaught, tr)
        | (DetailRes.ok _ _, tr) =>
          if target_side = "BUY" then
            match placeOrder env tr (GatewayCall.openLong symbol size order_type) with
            | (OrderRes.ok, tr2) => (Resp.okOpen, tr2)
            | (OrderRes.errHttp, tr2) => (Resp.bitgetHttp, tr2)
            | (_, tr2) => (Resp.uncaught, tr2)
          else if target_side = "SELL" then
            match placeOrder env tr (GatewayCall.openShort symbol size order_type) with
            | (OrderRes.ok, tr2) => (Resp.okOpen, tr2)
            | (OrderRes.errHttp, tr2) => (Resp.bitgetHttp, tr2)
            | (_, tr2) => (Resp.uncaught, tr2)
          else (Resp.badTargetSide, tr)
      else if route = "order.reverse" then
        if target_side = "BUY" then
          match ensure_close_full env symbol "SHORT" Trace.empty with
          | (Except.error _, tr) => (Resp.exception, tr)
          | (Except.ok cr, tr) =>
            if cr.okFlag then
              match placeOrder env tr (GatewayCall.openLong symbol size order_type) with
              | (OrderRes.ok, tr2) => (Resp.okReverse cr, tr2)
              | (OrderRes.errHttp, tr2) => (Resp.bitgetHttp, tr2)
              | (_, tr2) => (Resp.exception, tr2)
            else (Resp.closeFailed cr, tr)
        else if target_side = "SELL" then
          match ensure_close_full env symbol "LONG" Trace.empty with
          | (Except.error _, tr) => (Resp.exception, tr)
          | (Except.ok cr, tr) =>
            if cr.okFlag then
              match placeOrder env tr (GatewayCall.openShort symbol size order_type) with
              | (OrderRes.ok, tr2) => (Resp.okReverse cr, tr2)
              | (OrderRes.errHttp, tr2) => (Resp.bitgetHttp, tr2)
              | (_, tr2) => (Resp.exception, tr2)
            else (Resp.closeFailed cr, tr)
        else (Resp.badTargetSide, Trace.empty)
       else (Resp.unsupportedRoute, Trace.empty)
      else (Resp.unsupportedExchange, Trace.empty)
    else (Resp.unauthorized, Trace.empty)

/-- Embeds the `/tv` handler (`tv` in `src/server.py`): JSON parse failure
first, then the authenticated body. -/
def tv (env : Env) (webhook_secret : String) (payload : Option Payload) : Resp × Trace :=
  match payload with
  | none => (Resp.badJson, Trace.empty)
  | some p => tv_handle env webhook_secret p

/-!  The transport layer `BitgetClient._request` of `src/bitget_client.py`. -/

/-- What the HTTP session does on one attempt: raise a transport-level
exception (`ConnectionError`, `Timeout` or `ProtocolError`), or deliver a
response with the given status code. -/
inductive AttemptOut where
  | transport
  | response (status : Nat)
deriving DecidableEq

/-- How `_request` ends: return the parsed 2xx body of attempt `i`; raise
`requests.HTTPError` from `raise_for_status` at attempt `i`; re-raise the
last transport exception (seen at attempt `i`) after exhausting the retry
budget; or raise the final `RuntimeError` when the budget is exhausted
with no transport exception recorded. -/
inductive ReqOutcome where
  | success (attempt : Nat)
  | httpError (status : Nat) (attempt : Nat)
  | transportRaised (attempt : Nat)
  | runtimeFailed
deriving DecidableEq

/-- The backoff in force when attempt `j` fails at the transport level:
starts at 0.25 s and doubles, capped at 1.5 s. -/
def backoffAt : Nat → ℚ
  | 0 => mkRat 1 4
  | j + 1 => qmin (qmul (backoffAt j) 2) (mkRat 3 2)

/-- The sleeps performed when the first `k` attempts fail at the transport
level. -/
def backoffSleeps (k : Nat) : List ℚ := (List.range k).map backoffAt

/-- The retry loop of `BitgetClient._request`: a 2xx response returns its
body; `raise_for_status` raises for a status between 400 and 599; any
other response status (3xx, or 600 and above) falls through to the next
attempt without sleeping; a transport exception is recorded, slept on and
retried with doubled, capped backoff. -/
def req_loop (script : Nat → AttemptOut) :
    Nat → Nat → ℚ → Option Nat → List ℚ → ReqOutcome × List ℚ
  | 0, _, _, lastExc, sleeps =>
    match lastExc with
    | some j => (ReqOutcome.transportRaised j, sleeps)
    | none => (ReqOutcome.runtimeFailed, sleeps)
  | Nat.succ fuel, i, backoff, lastExc, sleeps =>
    match script i with
    | AttemptOut.response s =>
      if 200 ≤ s ∧ s < 300 then (ReqOutcome.success i, sleeps)
      else if 400 ≤ s ∧ s < 600 then (ReqOutcome.httpError s i, sleeps)
      else req_loop script fuel (i + 1) backoff lastExc sleeps
    | AttemptOut.transport =>
      req_loop script fuel (i + 1) (qmin (qmul backoff 2) (mkRat 3 2)) (some i)
        (sleeps ++ [backoff])

/-- Embeds `BitgetClient._request` from `src/bitget_client.py` with its
default budget of `max_retry = 4` attempts, starting backoff 0.25 s. -/
def bitget_request (script : Nat → AttemptOut) : ReqOutcome × List ℚ :=
  req_loop script 4 0 (mkRat 1 4) none []

/-- A concrete oracle: always long 5, short 0; orders succeed. -/
def envLong5 : Env := ⟨fun _ => DetailRes.ok 5 0, fun _ => OrderRes.ok⟩

/-- A concrete oracle: flat position; orders succeed. -/
def envFlat : Env := ⟨fun _ => DetailRes.ok 0 0, fun _ => OrderRes.ok⟩

/-- A concrete oracle: long 5 on the first query, flat afterwards; orders
succeed. -/
def envLong5Once : Env :=
  ⟨fun i => if i = 0 then DetailRes.ok 5 0 else DetailRes.ok 0 0, fun _ => OrderRes.ok⟩

/-- A concrete demo-exchange state holding a long position of 1 on
BTCUSDT, used as evaluation input. -/
def demoLong1 : DemoState :=
  ⟨100, fun x => if x = "BTCUSDT" then 1 else 0, [], []⟩

/-- A concrete demo-exchange state with no position anywhere. -/
def demoFlat : DemoState := ⟨100, fun _ => 0, [], []⟩

deriving instance DecidableEq for Except

def envShort5 : Env := ⟨fun _ => DetailRes.ok 0 5, fun _ => OrderRes.ok⟩

def pC1 : Payload :=
  ⟨some "s", some "order.reverse", some "bitget", some "BTCUSDT.P", some "BUY",
   some "MARKET", some "0.002"⟩

def pRevBuy : Payload :=
  ⟨some "s", some "order.reverse", some "bitget", some "BTCUSDT.P", some "BUY",
   some "MARKET", some "0.002"⟩

def pRevSell : Payload :=
  ⟨some "s", some "order.reverse", some "bitget", some "BTCUSDT.P", some "SELL",
   some "MARKET", some "0.004"⟩

def pOpenBadSide : Payload :=
  ⟨some "s", some "order.open", some "bitget", some "BTCUSDT.P", some "HOLD",
   some "MARKET", some "0.002"⟩

def pBadSecret : Payload :=
  ⟨some "wrong", some "order.open", some "bitget", some "BTCUSDT.P", some "BUY",
   some "MARKET", some "0.002"⟩

def pOpenBadQty : Payload :=
  ⟨some "s", some "order.open", some "bitget", some "BTCUSDT.P", some "BUY",
   some "LIMIT", some "-5"⟩

def pNoSymbol : Payload :=
  ⟨some "s", some "order.open", some "bitget", none, some "BUY", some "MARKET", some "0.01"⟩

def scriptC7 : Nat → AttemptOut := fun j => if j = 0 then AttemptOut.transport else AttemptOut.response 400

/-- The value bound to `s` in `normalize_symbol` after the optional removal
of a trailing `.P`. -/
def normTail (s : String) : String :=
  if pyEndsWith (pyUpper (pyStrip s)) ".P" then pyDropRight (pyUpper (pyStrip s)) 2
  else pyUpper (pyStrip s)

example : normalize_symbol "BTCUSDT.P" = "BTCUSDT_UMCBL" := by decide

example : normalize_symbol "BTCUSDT_UMCBL" = "BTCUSDT_UMCBL" := by decide

example : normalize_symbol "btcusdt" = "BTCUSDT_UMCBL" := by decide

example : normalize_symbol "BTCUSDT.P.P" = "BTCUSDT.P" := by decide

example : normalize_symbol "" = "BTCUSDT_UMCBL" := by decide

/-!  Kernel-computable rational arithmetic.  `Rat.add` and friends do not
reduce inside the kernel, so the embedding performs arithmetic through
`mkRat`; the following helpers are proved equal to the field operations. -/

theorem qadd_eq (a b : ℚ) : qadd a b = a + b := by
  have ha : ((a.den : ℚ)) ≠ 0 := Nat.cast_ne_zero.mpr a.den_nz
  have hb : ((b.den : ℚ)) ≠ 0 := Nat.cast_ne_zero.mpr b.den_nz
  have h := div_add_div (a.num : ℚ) (b.num : ℚ) ha hb
  rw [Rat.num_div_den, Rat.num_div_den] at h
  rw [qadd, Rat.mkRat_eq_div]
  push_cast
  rw [h]
  ring_nf

theorem qmul_eq (a b : ℚ) : qmul a b = a * b := by
  rw [qmul, Rat.mkRat_eq_div]
  push_cast
  conv_rhs => rw [← Rat.num_div_den a, ← Rat.num_div_den b, div_mul_div_comm]

theorem qneg_eq (a : ℚ) : qneg a = -a := by
  rw [qneg, Rat.mkRat_eq_div]
  push_cast
  conv_rhs => rw [← Rat.num_div_den a, ← neg_div]

theorem qabs_eq (a : ℚ) : qabs a = |a| := by
  have hd : (0:ℚ) < (a.den : ℚ) := by exact_mod_cast a.den_pos
  rw [qabs, Rat.mkRat_eq_div]
  conv_rhs => rw [← Rat.num_div_den a, abs_div, abs_of_pos hd]
  congr 1
  rw [show Int.ofNat a.num.natAbs = |a.num| from (Int.abs_eq_natAbs a.num).symm]
  exact Int.cast_abs

theorem qmin_eq (a b : ℚ) : qmin a b = min a b := by rw [qmin, min_def]

example : fmt_qty 5 = 5 := by decide

example : fmt_qty (mkRat 1 3) = mkRat 333333 1000000 := by decide

/-!  The in-memory demo exchange of `src/bitget.py` (`DemoExchange`).
Order ids, client order ids and timestamps are opaque bookkeeping that no
claim mentions; the embedding keeps the fields that the position logic and
the record counts depend on. -/

example : (place_market_order demoLong10 "BTCUSDT" "SELL" 15 true).positions "BTCUSDT"
    < 0 := by decide

example : (place_market_order demoLong10 "BTCUSDT" "SELL" 3 true).positions "BTCUSDT"
    = 0 := by decide

example : get_positions (close_all_positions demoLong10 "BTCUSDT") "BTCUSDT" = 0 := by decide

/-!  The live server of `src/server.py`.  The Bitget client is an oracle:
`Env.details i` is the outcome of the i-th position query
(`get_hedge_detail`) and `Env.orders j` the outcome of the j-th placed
order, while a `Trace` records every Gateway call in issue order.  The
per-symbol lock only serialises requests; a single request, which is what
every claim is about, runs the body sequentially exactly as embedded. -/

example :
    bitget_request (fun j => if j = 0 then AttemptOut.transport else AttemptOut.response 200)
      = (ReqOutcome.success 1, [mkRat 1 4]) := by decide

example :
    bitget_request (fun _ => AttemptOut.transport)
      = (ReqOutcome.transportRaised 3, [mkRat 1 4, mkRat 1 2, 1, mkRat 3 2]) := by decide

example :
    bitget_request (fun _ => AttemptOut.response 404)
      = (ReqOutcome.httpError 404 0, []) := by decide

example :
    tv envLong5 "s"
      (some ⟨some "s", some "order.reverse", some "bitget", some "BTCUSDT.P",
             some "BUY", some "MARKET", some "0.002"⟩)
      = (Resp.okReverse CloseResult.okSkipped,
         ⟨[GatewayCall.getDetail "BTCUSDT_UMCBL",
           GatewayCall.openLong "BTCUSDT_UMCBL" "0.002" "market"], 1, 1⟩) := by decide

example :
    tv envLong5Once "s"
      (some ⟨some "s", some "order.reverse", some "bitget", some "BTCUSDT.P",
             some "SELL", some "MARKET", some "0.002"⟩)
      = (Resp.okReverse (CloseResult.okClosed 5 0),
         ⟨[GatewayCall.getDetail "BTCUSDT_UMCBL",
           GatewayCall.closeLong "BTCUSDT_UMCBL" 5,
           GatewayCall.getDetail "BTCUSDT_UMCBL",
           GatewayCall.openShort "BTCUSDT_UMCBL" "0.002" "market"], 2, 2⟩) := by decide

example :
    (tv envLong5 "s"
      (some ⟨some "s", some "order.reverse", some "bitget", some "BTCUSDT.P",
             some "SELL", some "MARKET", some "0.002"⟩)).1
      = Resp.closeFailed CloseResult.notFlat := by decide

/-- C4: the claim fails on the code.  With a long position of 10, a
reduce-only SELL market order of size 15 flips the recorded position to
-5 (short), and with a long position of 1 the same order leaves magnitude
14 > 1: the reduce-only clamp in `DemoExchange.place_market_order` tests
for the remaining-same-sign case instead of the sign-flip case, so an
oversized reduce-only order flips and can grow the exposure, contrary to
the code's own comments. -/
theorem C4_reduce_only_flip_eval :
    (0 < get_positions demoLong10 "BTCUSDT" ∧
      get_positions (place_market_order demoLong10 "BTCUSDT" "SELL" 15 true) "BTCUSDT" < 0) ∧
    qabs (get_positions (place_market_order demoLong1 "BTCUSDT" "SELL" 15 true) "BTCUSDT")
      > qabs (get_positions demoLong1 "BTCUSDT") := by decide

/-- C9: after `DemoExchange.close_all_positions`, `get_positions` reports
size zero, and when the position was already zero the state is unchanged,
so no order is placed and no fill is recorded. -/
theorem C9_close_all_flattens (st : DemoState) (symbol : String) :
    get_positions (close_all_positions st symbol) symbol = 0 ∧
    (get_positions st symbol = 0 → close_all_positions st symbol = st) := by
  constructor
  · by_cases h : st.positions symbol = 0
    · simp [close_all_positions, get_positions, h]
    · rcases (Ne.lt_or_lt h) with hneg | hpos
      · have habs : qabs (st.positions symbol) = -(st.positions symbol) := by
          rw [qabs_eq, abs_of_neg hneg]
        have hup : pyUpper "BUY" = "BUY" := by decide
        have hm : qmul (st.positions symbol) (qabs (st.positions symbol)) < 0 := by
          rw [qmul_eq, habs]
          nlinarith [mul_pos (neg_pos.mpr hneg) (neg_pos.mpr hneg)]
        have hz : qadd (st.positions symbol) (qabs (st.positions symbol)) = 0 := by
          rw [qadd_eq, habs]; ring
        simp only [close_all_positions, get_positions, place_market_order,
          if_neg h, if_neg (not_lt.mpr hneg.le)]
        simp [hup, hm, hz, hneg.not_lt]
      · have habs : qabs (st.positions symbol) = st.positions symbol := by
          rw [qabs_eq, abs_of_pos hpos]
        have hup : pyUpper "SELL" = "SELL" := by decide
        have hm : qmul (st.positions symbol) (qneg (qabs (st.positions symbol))) < 0 := by
          rw [qmul_eq, qneg_eq, habs]
          nlinarith [mul_pos hpos hpos]
        have hz : qadd (st.positions symbol) (qneg (qabs (st.positions symbol))) = 0 := by
          rw [qadd_eq, qneg_eq, habs]; ring
        simp only [close_all_positions, get_positions, place_market_order,
          if_neg h, if_pos hpos]
        simp [hup, hm, hz, hpos.not_lt, show ("SELL":String) ≠ "BUY" from by decide]
  · intro h
    simp [close_all_positions, get_positions] at h ⊢
    simp [h]

/-- Witness for C9 at concrete states: closing flattens the long-10
state, and on the flat state `close_all_positions` is the identity. -/
theorem C9_close_all_flattens_witness :
    get_positions (close_all_positions demoLong10 "BTCUSDT") "BTCUSDT" = 0 ∧
    close_all_positions demoFlat "BTCUSDT" = demoFlat :=
  ⟨(C9_close_all_flattens demoLong10 "BTCUSDT").1,
   (C9_close_all_flattens demoFlat "BTCUSDT").2 (by decide)⟩

theorem tv_open_buy (env : Env) (ws : String) (p : Payload) (l s : ℚ)
    (h1 : p.secret.getD "None" = ws)
    (h2 : pyLower (p.exchange.getD "bitget") = "bitget")
    (h3 : pyStrip (p.route.getD "") = "order.open")
    (h4 : pyUpper (p.target_side.getD "") = "BUY")
    (hd : env.details 0 = DetailRes.ok l s)
    (ho : env.orders 0 = OrderRes.ok) :
    tv env ws (some p)
      = (Resp.okOpen,
         ⟨[GatewayCall.getDetail (normalize_symbol (pyStrip (p.symbol.getD "BTCUSDT_UMCBL"))),
           GatewayCall.openLong (normalize_symbol (pyStrip (p.symbol.getD "BTCUSDT_UMCBL")))
             (p.size.getD "0.001") (pyLower (p.otype.getD "MARKET"))], 1, 1⟩) := by
  simp only [tv, tv_handle, h1, h2, h3, h4, getDetail, placeOrder, Trace.empty, hd, ho]
  simp

theorem tv_reverse_buy_failed (env : Env) (ws : String) (p : Payload) (cr : CloseResult) (tr : Trace)
    (h1 : p.secret.getD "None" = ws)
    (h2 : pyLower (p.exchange.getD "bitget") = "bitget")
    (h3 : pyStrip (p.route.getD "") = "order.reverse")
    (h4 : pyUpper (p.target_side.getD "") = "BUY")
    (hc : ensure_close_full env (normalize_symbol (pyStrip (p.symbol.getD "BTCUSDT_UMCBL")))
        "SHORT" Trace.empty = (Except.ok cr, tr))
    (hflag : cr.okFlag = false) :
    tv env ws (some p) = (Resp.closeFailed cr, tr) := by
  simp only [tv, tv_handle, h1, h2, h3, h4, hc, hflag]
  simp [show ¬(("order.reverse":String) = "order.open") from by decide]

theorem tv_reverse_buy_opened (env : Env) (ws : String) (p : Payload) (cr : CloseResult) (tr : Trace)
    (h1 : p.secret.getD "None" = ws)
    (h2 : pyLower (p.exchange.getD "bitget") = "bitget")
    (h3 : pyStrip (p.route.getD "") = "order.reverse")
    (h4 : pyUpper (p.target_side.getD "") = "BUY")
    (hc : ensure_close_full env (normalize_symbol (pyStrip (p.symbol.getD "BTCUSDT_UMCBL")))
        "SHORT" Trace.empty = (Except.ok cr, tr))
    (hflag : cr.okFlag = true)
    (ho : env.orders tr.nOrders = OrderRes.ok) :
    tv env ws (some p)
      = (Resp.okReverse cr,
         ⟨tr.calls ++ [GatewayCall.openLong (normalize_symbol (pyStrip (p.symbol.getD "BTCUSDT_UMCBL")))
             (p.size.getD "0.001") (pyLower (p.otype.getD "MARKET"))],
          tr.nDetails, tr.nOrders + 1⟩) := by
  simp only [tv, tv_handle, h1, h2, h3, h4, hc, hflag, placeOrder, ho]
  simp [show ¬(("order.reverse":String) = "order.open") from by decide]

theorem ecl_skip_first (env : Env) (sym : String) (l s : ℚ)
    (hd : env.details 0 = DetailRes.ok l s) (hs : s ≤ 0) :
    ensure_close_full env sym "SHORT" Trace.empty
      = (Except.ok CloseResult.okSkipped, ⟨[GatewayCall.getDetail sym], 1, 0⟩) := by
  simp only [ensure_close_full, ecl_loop, ecl_attempt, getDetail, Trace.empty, hd]
  simp [hs, show ¬(("SHORT":String) = "LONG") from by decide]

theorem ecl_close_first (env : Env) (sym : String) (l s l2 s2 : ℚ)
    (hd0 : env.details 0 = DetailRes.ok l s) (hl : 0 < l)
    (ho : env.orders 0 = OrderRes.ok)
    (hd1 : env.details 1 = DetailRes.ok l2 s2) (hl2 : l2 ≤ 0) :
    ensure_close_full env sym "LONG" Trace.empty
      = (Except.ok (CloseResult.okClosed l l2),
         ⟨[GatewayCall.getDetail sym, GatewayCall.closeLong sym (fmt_qty l),
           GatewayCall.getDetail sym], 2, 1⟩) := by
  simp only [ensure_close_full, ecl_loop, ecl_attempt, getDetail, placeOrder, Trace.empty]
  simp [hd0, ho, hd1, repollSizes, hl.not_le, hl2]

theorem ecl_attempt_calls (env : Env) (sym side : String) (tr : Trace) :
    ∃ k : List GatewayCall,
      (ecl_attempt env sym side tr).2.calls = tr.calls ++ k ∧ ∀ c ∈ k, c.isOpen = false := by
  unfold ecl_attempt getDetail placeOrder
  cases env.details tr.nDetails with
  | errHttp => exact ⟨[GatewayCall.getDetail sym], rfl, by simp [GatewayCall.isOpen]⟩
  | errOther => exact ⟨[GatewayCall.getDetail sym], rfl, by simp [GatewayCall.isOpen]⟩
  | ok l s =>
    by_cases hside : side = "LONG"
    · by_cases h1 : l ≤ 0
      · exact ⟨[GatewayCall.getDetail sym], by simp [hside, h1], by simp [GatewayCall.isOpen]⟩
      · by_cases h2 : env.orders tr.nOrders = OrderRes.errOther
        · exact ⟨[GatewayCall.getDetail sym, GatewayCall.closeLong sym (fmt_qty l)],
            by simp [hside, h1, h2], by simp [GatewayCall.isOpen]⟩
        · refine ⟨[GatewayCall.getDetail sym, GatewayCall.closeLong sym (fmt_qty l),
              GatewayCall.getDetail sym], ?_, by simp [GatewayCall.isOpen]⟩
          simp [hside, h1, h2]
          split_ifs <;> simp
    · by_cases h1 : s ≤ 0
      · exact ⟨[GatewayCall.getDetail sym], by simp [hside, h1], by simp [GatewayCall.isOpen]⟩
      · by_cases h2 : env.orders tr.nOrders = OrderRes.errOther
        · exact ⟨[GatewayCall.getDetail sym, GatewayCall.closeShort sym (fmt_qty s)],
            by simp [hside, h1, h2], by simp [GatewayCall.isOpen]⟩
        · refine ⟨[GatewayCall.getDetail sym, GatewayCall.closeShort sym (fmt_qty s),
              GatewayCall.getDetail sym], ?_, by simp [GatewayCall.isOpen]⟩
          simp [hside, h1, h2]
          split_ifs <;> simp

theorem tv_reverse_sell_failed (env : Env) (ws : String) (p : Payload) (cr : CloseResult) (tr : Trace)
    (h1 : p.secret.getD "None" = ws)
    (h2 : pyLower (p.exchange.getD "bitget") = "bitget")
    (h3 : pyStrip (p.route.getD "") = "order.reverse")
    (h4 : pyUpper (p.target_side.getD "") = "SELL")
    (hc : ensure_close_full env (normalize_symbol (pyStrip (p.symbol.getD "BTCUSDT_UMCBL")))
        "LONG" Trace.empty = (Except.ok cr, tr))
    (hflag : cr.okFlag = false) :
    tv env ws (some p) = (Resp.closeFailed cr, tr) := by
  simp only [tv, tv_handle, h1, h2, h3, h4, hc, hflag]
  simp [show ¬(("order.reverse":String) = "order.open") from by decide,
    show ¬(("SELL":String) = "BUY") from by decide]

theorem tv_reverse_sell_opened (env : Env) (ws : String) (p : Payload) (cr : CloseResult) (tr : Trace)
    (h1 : p.secret.getD "None" = ws)
    (h2 : pyLower (p.exchange.getD "bitget") = "bitget")
    (h3 : pyStrip (p.route.getD "") = "order.reverse")
    (h4 : pyUpper (p.target_side.getD "") = "SELL")
    (hc : ensure_close_full env (normalize_symbol (pyStrip (p.symbol.getD "BTCUSDT_UMCBL")))
        "LONG" Trace.empty = (Except.ok cr, tr))
    (hflag : cr.okFlag = true)
    (ho : env.orders tr.nOrders = OrderRes.ok) :
    tv env ws (some p)
      = (Resp.okReverse cr,
         ⟨tr.calls ++ [GatewayCall.openShort (normalize_symbol (pyStrip (p.symbol.getD "BTCUSDT_UMCBL")))
             (p.size.getD "0.001") (pyLower (p.otype.getD "MARKET"))],
          tr.nDetails, tr.nOrders + 1⟩) := by
  simp only [tv, tv_handle, h1, h2, h3, h4, hc, hflag, placeOrder, ho]
  simp [show ¬(("order.reverse":String) = "order.open") from by decide,
    show ¬(("SELL":String) = "BUY") from by decide]

theorem ecl_skip_first_long (env : Env) (sym : String) (l s : ℚ)
    (hd : env.details 0 = DetailRes.ok l s) (hl : l ≤ 0) :
    ensure_close_full env sym "LONG" Trace.empty
      = (Except.ok CloseResult.okSkipped, ⟨[GatewayCall.getDetail sym], 1, 0⟩) := by
  simp only [ensure_close_full, ecl_loop, ecl_attempt, getDetail, Trace.empty, hd]
  simp [hl]

theorem ecl_loop_calls (env : Env) (sym side : String) (fuel : Nat) (tr : Trace)
    (h : ∀ c ∈ tr.calls, c.isOpen = false) :
    ∀ c ∈ (ecl_loop env sym side fuel tr).2.calls, c.isOpen = false := by
  induction fuel generalizing tr with
  | zero => exact h
  | succ n ih =>
    obtain ⟨k, hk, hko⟩ := ecl_attempt_calls env sym side tr
    have hall : ∀ c ∈ (ecl_attempt env sym side tr).2.calls, c.isOpen = false := by
      rw [hk]
      intro c hc
      rcases List.mem_append.mp hc with hc | hc
      · exact h c hc
      · exact hko c hc
    rcases hstep : ecl_attempt env sym side tr with ⟨st, tr2⟩
    rw [hstep] at hall
    unfold ecl_loop
    rw [hstep]
    cases st with
    | finish r => exact hall
    | raised => exact hall
    | again => exact ih tr2 hall

theorem ensure_close_full_no_open (env : Env) (sym side : String) :
    ∀ c ∈ (ensure_close_full env sym side Trace.empty).2.calls, c.isOpen = false :=
  ecl_loop_calls env sym side 10 Trace.empty (by simp [Trace.empty])

/-- C1: for every reverse directive whose close-confirmation loop exhausts
its budget of 10 attempts without the opposite-direction size reaching
zero (`ensure_close_full` returns the `close_not_flat` failure), the
handler responds with that failure and the request trace contains no open
order. -/
theorem C1_close_not_flat_aborts_open (env : Env) (ws : String) (p : Payload)
    (h1 : p.secret.getD "None" = ws)
    (h2 : pyLower (p.exchange.getD "bitget") = "bitget")
    (h3 : pyStrip (p.route.getD "") = "order.reverse")
    (h4 : (pyUpper (p.target_side.getD "") = "BUY" ∧
            (ensure_close_full env (normalize_symbol (pyStrip (p.symbol.getD "BTCUSDT_UMCBL")))
              "SHORT" Trace.empty).1 = Except.ok CloseResult.notFlat) ∨
          (pyUpper (p.target_side.getD "") = "SELL" ∧
            (ensure_close_full env (normalize_symbol (pyStrip (p.symbol.getD "BTCUSDT_UMCBL")))
              "LONG" Trace.empty).1 = Except.ok CloseResult.notFlat)) :
    ∃ tr : Trace, tv env ws (some p) = (Resp.closeFailed CloseResult.notFlat, tr) ∧
      ∀ c ∈ tr.calls, c.isOpen = false := by
  rcases h4 with ⟨hts, hcf⟩ | ⟨hts, hcf⟩
  · rcases hr : ensure_close_full env
        (normalize_symbol (pyStrip (p.symbol.getD "BTCUSDT_UMCBL"))) "SHORT" Trace.empty
      with ⟨r, tr⟩
    rw [hr] at hcf
    have hr2 : r = Except.ok CloseResult.notFlat := hcf
    subst hr2
    refine ⟨tr, tv_reverse_buy_failed env ws p _ tr h1 h2 h3 hts hr rfl, ?_⟩
    have hno := ensure_close_full_no_open env
      (normalize_symbol (pyStrip (p.symbol.getD "BTCUSDT_UMCBL"))) "SHORT"
    rw [hr] at hno
    exact hno
  · rcases hr : ensure_close_full env
        (normalize_symbol (pyStrip (p.symbol.getD "BTCUSDT_UMCBL"))) "LONG" Trace.empty
      with ⟨r, tr⟩
    rw [hr] at hcf
    have hr2 : r = Except.ok CloseResult.notFlat := hcf
    subst hr2
    refine ⟨tr, tv_reverse_sell_failed env ws p _ tr h1 h2 h3 hts hr rfl, ?_⟩
    have hno := ensure_close_full_no_open env
      (normalize_symbol (pyStrip (p.symbol.getD "BTCUSDT_UMCBL"))) "LONG"
    rw [hr] at hno
    exact hno

/-- Witness for C1: a short position of 5 that never shrinks exhausts the
close loop; the response is the close-not-flat failure and no open order
is issued. -/
theorem C1_witness :
    ∃ tr : Trace, tv envShort5 "s" (some pC1) = (Resp.closeFailed CloseResult.notFlat, tr) ∧
      ∀ c ∈ tr.calls, c.isOpen = false :=
  C1_close_not_flat_aborts_open envShort5 "s" pC1 (by decide) (by decide) (by decide)
    (Or.inl ⟨by decide, by decide⟩)

/-- C2 fails on the code: a reverse directive whose target side (long) is
already held (long 5, short 0) is not a no-op — the close is skipped as
already zero, but an open order is still issued and the response is a
plain success, not a same-direction skip. -/
theorem C2_counterexample :
    (tv envLong5 "s" (some pRevBuy)).1 = Resp.okReverse CloseResult.okSkipped ∧
    GatewayCall.openLong "BTCUSDT_UMCBL" "0.002" "market"
      ∈ (tv envLong5 "s" (some pRevBuy)).2.calls := by decide

/-- C2 as amended: when the reverse target side is already the held
direction (the opposite side is reported not positive), the code skips
the close with reason already-zero but still places exactly one open
order of the requested size — one order, not zero, and no
same-direction-skip result exists. -/
theorem C2_amended_same_direction_still_opens (env : Env) (ws : String) (p : Payload) (l s : ℚ)
    (h1 : p.secret.getD "None" = ws)
    (h2 : pyLower (p.exchange.getD "bitget") = "bitget")
    (h3 : pyStrip (p.route.getD "") = "order.reverse")
    (hdet : env.details 0 = DetailRes.ok l s)
    (ho : env.orders 0 = OrderRes.ok) :
    (pyUpper (p.target_side.getD "") = "BUY" → s ≤ 0 →
      tv env ws (some p)
        = (Resp.okReverse CloseResult.okSkipped,
           ⟨[GatewayCall.getDetail (normalize_symbol (pyStrip (p.symbol.getD "BTCUSDT_UMCBL"))),
             GatewayCall.openLong (normalize_symbol (pyStrip (p.symbol.getD "BTCUSDT_UMCBL")))
               (p.size.getD "0.001") (pyLower (p.otype.getD "MARKET"))], 1, 1⟩)) ∧
    (pyUpper (p.target_side.getD "") = "SELL" → l ≤ 0 →
      tv env ws (some p)
        = (Resp.okReverse CloseResult.okSkipped,
           ⟨[GatewayCall.getDetail (normalize_symbol (pyStrip (p.symbol.getD "BTCUSDT_UMCBL"))),
             GatewayCall.openShort (normalize_symbol (pyStrip (p.symbol.getD "BTCUSDT_UMCBL")))
               (p.size.getD "0.001") (pyLower (p.otype.getD "MARKET"))], 1, 1⟩)) := by
  constructor
  · intro h4 hs
    have hc := ecl_skip_first env
      (normalize_symbol (pyStrip (p.symbol.getD "BTCUSDT_UMCBL"))) l s hdet hs
    have := tv_reverse_buy_opened env ws p CloseResult.okSkipped
      ⟨[GatewayCall.getDetail (normalize_symbol (pyStrip (p.symbol.getD "BTCUSDT_UMCBL")))], 1, 0⟩
      h1 h2 h3 h4 hc rfl ho
    simpa using this
  · intro h4 hl
    have hc := ecl_skip_first_long env
      (normalize_symbol (pyStrip (p.symbol.getD "BTCUSDT_UMCBL"))) l s hdet hl
    have := tv_reverse_sell_opened env ws p CloseResult.okSkipped
      ⟨[GatewayCall.getDetail (normalize_symbol (pyStrip (p.symbol.getD "BTCUSDT_UMCBL")))], 1, 0⟩
      h1 h2 h3 h4 hc rfl ho
    simpa using this

/-- Witness for the amended C2 at a concrete oracle and payload. -/
theorem C2_amended_witness :
    tv envLong5 "s" (some pRevBuy)
      = (Resp.okReverse CloseResult.okSkipped,
         ⟨[GatewayCall.getDetail "BTCUSDT_UMCBL",
           GatewayCall.openLong "BTCUSDT_UMCBL" "0.002" "market"], 1, 1⟩) :=
  (C2_amended_same_direction_still_opens envLong5 "s" pRevBuy 5 0 (by decide) (by decide)
    (by decide) (by decide) (by decide)).1 (by decide) (by decide)

/-- C3: a reverse directive to short received while the exchange reports
long L > 0 and short 0 issues exactly one reduce-only close of quantity L
(the reported exposure, independent of the directive size), then re-polls,
and only after the poll confirms the long side is zero issues exactly one
open order of the directive's requested quantity. -/
theorem C3_reverse_from_long (env : Env) (ws : String) (p : Payload) (L S l2 s2 : ℚ)
    (h1 : p.secret.getD "None" = ws)
    (h2 : pyLower (p.exchange.getD "bitget") = "bitget")
    (h3 : pyStrip (p.route.getD "") = "order.reverse")
    (h4 : pyUpper (p.target_side.getD "") = "SELL")
    (hd0 : env.details 0 = DetailRes.ok L S) (hL : 0 < L)
    (hfmt : fmt_qty L = L)
    (ho0 : env.orders 0 = OrderRes.ok)
    (hd1 : env.details 1 = DetailRes.ok l2 s2) (hl2 : l2 ≤ 0)
    (ho1 : env.orders 1 = OrderRes.ok) :
    tv env ws (some p)
      = (Resp.okReverse (CloseResult.okClosed L l2),
         ⟨[GatewayCall.getDetail (normalize_symbol (pyStrip (p.symbol.getD "BTCUSDT_UMCBL"))),
           GatewayCall.closeLong (normalize_symbol (pyStrip (p.symbol.getD "BTCUSDT_UMCBL"))) L,
           GatewayCall.getDetail (normalize_symbol (pyStrip (p.symbol.getD "BTCUSDT_UMCBL"))),
           GatewayCall.openShort (normalize_symbol (pyStrip (p.symbol.getD "BTCUSDT_UMCBL")))
             (p.size.getD "0.001") (pyLower (p.otype.getD "MARKET"))], 2, 2⟩) := by
  have hc := ecl_close_first env
    (normalize_symbol (pyStrip (p.symbol.getD "BTCUSDT_UMCBL"))) L S l2 s2 hd0 hL ho0 hd1 hl2
  rw [hfmt] at hc
  have := tv_reverse_sell_opened env ws p (CloseResult.okClosed L l2)
    ⟨[GatewayCall.getDetail (normalize_symbol (pyStrip (p.symbol.getD "BTCUSDT_UMCBL"))),
      GatewayCall.closeLong (normalize_symbol (pyStrip (p.symbol.getD "BTCUSDT_UMCBL"))) L,
      GatewayCall.getDetail (normalize_symbol (pyStrip (p.symbol.getD "BTCUSDT_UMCBL")))], 2, 1⟩
    h1 h2 h3 h4 hc rfl ho1
  simpa using this

/-- Witness for C3: reversing from long 5 with requested size 0.004. -/
theorem C3_witness :
    tv envLong5Once "s" (some pRevSell)
      = (Resp.okReverse (CloseResult.okClosed 5 0),
         ⟨[GatewayCall.getDetail "BTCUSDT_UMCBL",
           GatewayCall.closeLong "BTCUSDT_UMCBL" 5,
           GatewayCall.getDetail "BTCUSDT_UMCBL",
           GatewayCall.openShort "BTCUSDT_UMCBL" "0.004" "market"], 2, 2⟩) :=
  C3_reverse_from_long envLong5Once "s" pRevSell 5 0 0 0 (by decide) (by decide) (by decide)
    (by decide) (by decide) (by decide) (by decide) (by decide) (by decide) (by decide)
    (by decide)

theorem C5_of_resp (x : Resp × Trace)
    (h : (x.1 ≠ Resp.badJson ∧ x.1 ≠ Resp.unauthorized ∧ x.1 ≠ Resp.unsupportedExchange ∧
          x.1 ≠ Resp.unsupportedRoute ∧ x.1 ≠ Resp.badTargetSide) ∨
         x.2.calls = [] ∨
         (x.1 = Resp.badTargetSide ∧ ∃ sym, x.2.calls = [GatewayCall.getDetail sym])) :
    ((x.1 = Resp.badJson ∨ x.1 = Resp.unauthorized ∨ x.1 = Resp.unsupportedExchange ∨
      x.1 = Resp.unsupportedRoute) → x.2.calls = []) ∧
    (x.1 = Resp.badTargetSide →
      (x.2.calls = [] ∨ ∃ sym, x.2.calls = [GatewayCall.getDetail sym])) := by
  rcases h with ⟨n1, n2, n3, n4, n5⟩ | he | ⟨hbt, hex⟩
  · exact ⟨fun hh => by rcases hh with hh | hh | hh | hh <;> simp_all,
           fun hh => absurd hh n5⟩
  · exact ⟨fun _ => he, fun _ => Or.inl he⟩
  · refine ⟨fun hh => ?_, fun _ => Or.inr hex⟩
    rcases hh with hh | hh | hh | hh <;> rw [hbt] at hh <;> nomatch hh

/-- C5 as amended: payloads rejected as bad-json, unauthorized,
unsupported-exchange or unsupported-route trigger no Gateway call, and a
bad-target-side rejection triggers at most one position query (exactly one
on the order.open route, none on order.reverse) and never an order. -/
theorem C5_amended_validation_calls (env : Env) (ws : String) (p? : Option Payload) :
    (((tv env ws p?).1 = Resp.badJson ∨ (tv env ws p?).1 = Resp.unauthorized ∨
      (tv env ws p?).1 = Resp.unsupportedExchange ∨ (tv env ws p?).1 = Resp.unsupportedRoute) →
      (tv env ws p?).2.calls = []) ∧
    ((tv env ws p?).1 = Resp.badTargetSide →
      ((tv env ws p?).2.calls = [] ∨
       ∃ sym, (tv env ws p?).2.calls = [GatewayCall.getDetail sym])) := by
  rcases p? with _ | p
  · exact ⟨fun _ => rfl, fun h => by nomatch h⟩
  have hwrap : tv env ws (some p) = tv_handle env ws p := rfl
  rw [hwrap]
  by_cases h1 : p.secret.getD "None" = ws
  case neg => exact C5_of_resp _ (Or.inr (Or.inl (by simp [tv_handle, h1, Trace.empty])))
  by_cases h2 : pyLower (p.exchange.getD "bitget") = "bitget"
  case neg => exact C5_of_resp _ (Or.inr (Or.inl (by simp [tv_handle, h1, h2, Trace.empty])))
  by_cases h3 : pyStrip (p.route.getD "") = "order.open"
  case pos =>
    cases hd : env.details 0 with
    | errHttp =>
      exact C5_of_resp _ (Or.inl (by simp [tv_handle, h1, h2, h3, getDetail, Trace.empty, hd]))
    | errOther =>
      exact C5_of_resp _ (Or.inl (by simp [tv_handle, h1, h2, h3, getDetail, Trace.empty, hd]))
    | ok l s =>
      by_cases hb : pyUpper (p.target_side.getD "") = "BUY"
      case pos =>
        cases ho : env.orders 0 <;>
          exact C5_of_resp _ (Or.inl (by
            simp [tv_handle, h1, h2, h3, hb, getDetail, placeOrder, Trace.empty, hd, ho]))
      case neg =>
        by_cases hs : pyUpper (p.target_side.getD "") = "SELL"
        case pos =>
          cases ho : env.orders 0 <;>
            exact C5_of_resp _ (Or.inl (by
              simp [tv_handle, h1, h2, h3, hb, hs, getDetail, placeOrder, Trace.empty, hd, ho]))
        case neg =>
          have htv : tv_handle env ws p
              = (Resp.badTargetSide,
                 ⟨[GatewayCall.getDetail (normalize_symbol (pyStrip (p.symbol.getD "BTCUSDT_UMCBL")))],
                  1, 0⟩) := by
            simp [tv_handle, h1, h2, h3, hb, hs, getDetail, Trace.empty, hd]
          exact C5_of_resp _ (Or.inr (Or.inr ⟨by rw [htv], _, by rw [htv]⟩))
  case neg =>
    by_cases h4 : pyStrip (p.route.getD "") = "order.reverse"
    case neg => exact C5_of_resp _ (Or.inr (Or.inl (by simp [tv_handle, h1, h2, h3, h4, Trace.empty])))
    case pos =>
      by_cases hb : pyUpper (p.target_side.getD "") = "BUY"
      case pos =>
        rcases hr : ensure_close_full env
            (normalize_symbol (pyStrip (p.symbol.getD "BTCUSDT_UMCBL"))) "SHORT" Trace.empty
          with ⟨er, tr⟩
        rcases er with _ | cr
        · exact C5_of_resp _ (Or.inl (by simp [tv_handle, h1, h2, h3, h4, hb, hr]))
        · by_cases hflag : cr.okFlag = true
          case pos =>
            cases ho : env.orders tr.nOrders <;>
              exact C5_of_resp _ (Or.inl (by
                simp [tv_handle, h1, h2, h3, h4, hb, hr, hflag, placeOrder, ho]))
          case neg =>
            exact C5_of_resp _ (Or.inl (by simp [tv_handle, h1, h2, h3, h4, hb, hr, hflag]))
      case neg =>
        by_cases hs : pyUpper (p.target_side.getD "") = "SELL"
        case pos =>
          rcases hr : ensure_close_full env
              (normalize_symbol (pyStrip (p.symbol.getD "BTCUSDT_UMCBL"))) "LONG" Trace.empty
            with ⟨er, tr⟩
          rcases er with _ | cr
          · exact C5_of_resp _ (Or.inl (by simp [tv_handle, h1, h2, h3, h4, hb, hs, hr]))
          · by_cases hflag : cr.okFlag = true
            case pos =>
              cases ho : env.orders tr.nOrders <;>
                exact C5_of_resp _ (Or.inl (by
                  simp [tv_handle, h1, h2, h3, h4, hb, hs, hr, hflag, placeOrder, ho]))
            case neg =>
              exact C5_of_resp _ (Or.inl (by
                simp [tv_handle, h1, h2, h3, h4, hb, hs, hr, hflag]))
        case neg =>
          exact C5_of_resp _ (Or.inr (Or.inl (by
            simp [tv_handle, h1, h2, h3, h4, hb, hs, Trace.empty])))

/-- C5 fails on the code: a payload rejected as bad-target-side on the
order.open route has already triggered one Gateway position query. -/
theorem C5_counterexample :
    (tv envFlat "s" (some pOpenBadSide)).1 = Resp.badTargetSide ∧
    (tv envFlat "s" (some pOpenBadSide)).2.calls
      = [GatewayCall.getDetail "BTCUSDT_UMCBL"] := by decide

/-- Witness for the amended C5: a wrong secret makes no Gateway calls; a
bad target side on order.open makes exactly one position query. -/
theorem C5_amended_witness :
    (tv envFlat "s" (some pBadSecret)).2.calls = [] ∧
    ((tv envFlat "s" (some pOpenBadSide)).2.calls = [] ∨
     ∃ sym, (tv envFlat "s" (some pOpenBadSide)).2.calls = [GatewayCall.getDetail sym]) :=
  ⟨(C5_amended_validation_calls envFlat "s" (some pBadSecret)).1
     (Or.inr (Or.inl (by decide))),
   (C5_amended_validation_calls envFlat "s" (some pOpenBadSide)).2 (by decide)⟩

/-- C6 fails on the code: a market payload with size -5 and type LIMIT is
not rejected; the position is queried and an open order with the raw size
string and lower-cased type is placed, returning success. -/
theorem C6_counterexample :
    tv envFlat "s" (some pOpenBadQty)
      = (Resp.okOpen,
         ⟨[GatewayCall.getDetail "BTCUSDT_UMCBL",
           GatewayCall.openLong "BTCUSDT_UMCBL" "-5" "limit"], 1, 1⟩) := by decide

/-- C6 as amended: the router performs no quantity or order-type
validation at all — whatever strings the payload carries in `size` and
`type` are forwarded to the exchange unchanged on the open path, after the
position query. -/
theorem C6_amended_no_size_or_type_validation (env : Env) (ws : String) (p : Payload) (l s : ℚ)
    (h1 : p.secret.getD "None" = ws)
    (h2 : pyLower (p.exchange.getD "bitget") = "bitget")
    (h3 : pyStrip (p.route.getD "") = "order.open")
    (h4 : pyUpper (p.target_side.getD "") = "BUY")
    (hd : env.details 0 = DetailRes.ok l s)
    (ho : env.orders 0 = OrderRes.ok) :
    tv env ws (some p)
      = (Resp.okOpen,
         ⟨[GatewayCall.getDetail (normalize_symbol (pyStrip (p.symbol.getD "BTCUSDT_UMCBL"))),
           GatewayCall.openLong (normalize_symbol (pyStrip (p.symbol.getD "BTCUSDT_UMCBL")))
             (p.size.getD "0.001") (pyLower (p.otype.getD "MARKET"))], 1, 1⟩) :=
  tv_open_buy env ws p l s h1 h2 h3 h4 hd ho

/-- Witness for the amended C6 at size -5 and type LIMIT. -/
theorem C6_amended_witness :
    tv envFlat "s" (some pOpenBadQty)
      = (Resp.okOpen,
         ⟨[GatewayCall.getDetail "BTCUSDT_UMCBL",
           GatewayCall.openLong "BTCUSDT_UMCBL" "-5" "limit"], 1, 1⟩) :=
  C6_amended_no_size_or_type_validation envFlat "s" pOpenBadQty 0 0 (by decide) (by decide)
    (by decide) (by decide) (by decide) (by decide)

/-- C10: normalize_symbol maps the empty string to BTCUSDT_UMCBL, and a
webhook payload with a missing or empty symbol field is silently routed to
the BTCUSDT_UMCBL instrument — the position query and the order go to that
symbol and the request is not rejected. -/
theorem C10_empty_symbol_default (env : Env) (ws : String) (p : Payload) (l s : ℚ)
    (h1 : p.secret.getD "None" = ws)
    (h2 : pyLower (p.exchange.getD "bitget") = "bitget")
    (h3 : pyStrip (p.route.getD "") = "order.open")
    (h4 : pyUpper (p.target_side.getD "") = "BUY")
    (hd : env.details 0 = DetailRes.ok l s)
    (ho : env.orders 0 = OrderRes.ok)
    (hsym : p.symbol = none ∨ p.symbol = some "") :
    normalize_symbol "" = "BTCUSDT_UMCBL" ∧
    tv env ws (some p)
      = (Resp.okOpen,
         ⟨[GatewayCall.getDetail "BTCUSDT_UMCBL",
           GatewayCall.openLong "BTCUSDT_UMCBL"
             (p.size.getD "0.001") (pyLower (p.otype.getD "MARKET"))], 1, 1⟩) := by
  have hsymval : normalize_symbol (pyStrip (p.symbol.getD "BTCUSDT_UMCBL")) = "BTCUSDT_UMCBL" := by
    rcases hsym with h | h <;> rw [h] <;> decide
  have := tv_open_buy env ws p l s h1 h2 h3 h4 hd ho
  rw [hsymval] at this
  exact ⟨by decide, this⟩

/-- Witness for C10: a payload without a symbol field is routed to
BTCUSDT_UMCBL. -/
theorem C10_witness :
    normalize_symbol "" = "BTCUSDT_UMCBL" ∧
    tv envFlat "s" (some pNoSymbol)
      = (Resp.okOpen,
         ⟨[GatewayCall.getDetail "BTCUSDT_UMCBL",
           GatewayCall.openLong "BTCUSDT_UMCBL" "0.01" "market"], 1, 1⟩) :=
  C10_empty_symbol_default envFlat "s" pNoSymbol 0 0 (by decide) (by decide) (by decide)
    (by decide) (by decide) (by decide) (Or.inl rfl)

theorem backoffAt_eq (j : Nat) : backoffAt j = min ((1/4 : ℚ) * 2 ^ j) (3/2 : ℚ) := by
  induction j with
  | zero =>
    rw [backoffAt, pow_zero, mul_one, min_eq_left (by norm_num)]
    rw [Rat.mkRat_eq_div]
    norm_num
  | succ j ih =>
    rw [backoffAt, qmin_eq, qmul_eq, ih]
    have h32 : (mkRat 3 2 : ℚ) = 3/2 := by rw [Rat.mkRat_eq_div]; norm_num
    rcases le_total ((1/4 : ℚ) * 2 ^ j) (3/2 : ℚ) with h | h
    · rw [min_eq_left h, h32, pow_succ]
      ring_nf
    · rw [min_eq_right h, h32]
      have h2 : (3/2 : ℚ) ≤ (1/4 : ℚ) * 2 ^ (j + 1) := by
        rw [pow_succ]
        nlinarith
      rw [min_eq_right h2]
      rw [min_eq_right (by norm_num)]

theorem req_loop_transport_step (script : Nat → AttemptOut) (fuel i : Nat) (b : ℚ)
    (le : Option Nat) (sl : List ℚ) (h : script i = AttemptOut.transport) :
    req_loop script (fuel + 1) i b le sl
      = req_loop script fuel (i + 1) (qmin (qmul b 2) (mkRat 3 2)) (some i) (sl ++ [b]) := by
  simp [req_loop, h]

theorem req_loop_http_step (script : Nat → AttemptOut) (fuel i s : Nat) (b : ℚ)
    (le : Option Nat) (sl : List ℚ) (h : script i = AttemptOut.response s)
    (hs : 400 ≤ s) (hs6 : s < 600) :
    req_loop script (fuel + 1) i b le sl = (ReqOutcome.httpError s i, sl) := by
  have hn : ¬ (200 ≤ s ∧ s < 300) := by omega
  simp [req_loop, h, hn, hs, hs6]

theorem req_loop_ok_step (script : Nat → AttemptOut) (fuel i s : Nat) (b : ℚ)
    (le : Option Nat) (sl : List ℚ) (h : script i = AttemptOut.response s)
    (h1 : 200 ≤ s) (h2 : s < 300) :
    req_loop script (fuel + 1) i b le sl = (ReqOutcome.success i, sl) := by
  simp [req_loop, h, h1, h2]

/-- C7: `_request` retries transport-level failures up to the budget of 4
attempts with capped exponential backoff (0.25 s doubling, capped at
1.5 s), returns the body the first time a 2xx response arrives, raises an
HTTP error response (status 400 to 599, the carrier of exchange error
codes) immediately without any further attempt, and after exhausting the
budget re-raises the last transport exception. -/
theorem C7_transport_retry_and_http_no_retry (script : Nat → AttemptOut) :
    (∀ k s, k < 4 → (∀ j, j < k → script j = AttemptOut.transport) →
      script k = AttemptOut.response s → 400 ≤ s → s < 600 →
      bitget_request script = (ReqOutcome.httpError s k, backoffSleeps k)) ∧
    (∀ k s, k < 4 → (∀ j, j < k → script j = AttemptOut.transport) →
      script k = AttemptOut.response s → 200 ≤ s → s < 300 →
      bitget_request script = (ReqOutcome.success k, backoffSleeps k)) ∧
    ((∀ j, j < 4 → script j = AttemptOut.transport) →
      bitget_request script = (ReqOutcome.transportRaised 3, backoffSleeps 4)) ∧
    (∀ j, backoffAt j = min ((1/4 : ℚ) * 2 ^ j) (3/2 : ℚ)) := by
  refine ⟨?_, ?_, ?_, backoffAt_eq⟩
  · intro k s hk hprev hresp hs hs6
    interval_cases k
    · rw [bitget_request, req_loop_http_step script 3 0 s _ _ _ hresp hs hs6]
      simp [backoffSleeps]
    · rw [bitget_request, req_loop_transport_step script 3 0 _ _ _ (hprev 0 (by omega)),
        req_loop_http_step script 2 1 s _ _ _ hresp hs hs6]
      simp [backoffSleeps, backoffAt, List.range_succ]
    · rw [bitget_request, req_loop_transport_step script 3 0 _ _ _ (hprev 0 (by omega)),
        req_loop_transport_step script 2 1 _ _ _ (hprev 1 (by omega)),
        req_loop_http_step script 1 2 s _ _ _ hresp hs hs6]
      simp [backoffSleeps, backoffAt, List.range_succ]
    · rw [bitget_request, req_loop_transport_step script 3 0 _ _ _ (hprev 0 (by omega)),
        req_loop_transport_step script 2 1 _ _ _ (hprev 1 (by omega)),
        req_loop_transport_step script 1 2 _ _ _ (hprev 2 (by omega)),
        req_loop_http_step script 0 3 s _ _ _ hresp hs hs6]
      simp [backoffSleeps, backoffAt, List.range_succ]
  · intro k s hk hprev hresp h1 h2
    interval_cases k
    · rw [bitget_request, req_loop_ok_step script 3 0 s _ _ _ hresp h1 h2]
      simp [backoffSleeps]
    · rw [bitget_request, req_loop_transport_step script 3 0 _ _ _ (hprev 0 (by omega)),
        req_loop_ok_step script 2 1 s _ _ _ hresp h1 h2]
      simp [backoffSleeps, backoffAt, List.range_succ]
    · rw [bitget_request, req_loop_transport_step script 3 0 _ _ _ (hprev 0 (by omega)),
        req_loop_transport_step script 2 1 _ _ _ (hprev 1 (by omega)),
        req_loop_ok_step script 1 2 s _ _ _ hresp h1 h2]
      simp [backoffSleeps, backoffAt, List.range_succ]
    · rw [bitget_request, req_loop_transport_step script 3 0 _ _ _ (hprev 0 (by omega)),
        req_loop_transport_step script 2 1 _ _ _ (hprev 1 (by omega)),
        req_loop_transport_step script 1 2 _ _ _ (hprev 2 (by omega)),
        req_loop_ok_step script 0 3 s _ _ _ hresp h1 h2]
      simp [backoffSleeps, backoffAt, List.range_succ]
  · intro hall
    rw [bitget_request, req_loop_transport_step script 3 0 _ _ _ (hall 0 (by omega)),
      req_loop_transport_step script 2 1 _ _ _ (hall 1 (by omega)),
      req_loop_transport_step script 1 2 _ _ _ (hall 2 (by omega)),
      req_loop_transport_step script 0 3 _ _ _ (hall 3 (by omega))]
    simp [req_loop, backoffSleeps, backoffAt, List.range_succ]

/-- Witness for C7: one transport failure followed by a 400 response
raises at attempt 1 after a single 0.25 s sleep; backoff at attempt 2 is
the capped exponential value. -/
theorem C7_witness :
    bitget_request scriptC7 = (ReqOutcome.httpError 400 1, backoffSleeps 1) ∧
    backoffAt 2 = min ((1/4 : ℚ) * 2 ^ 2) (3/2 : ℚ) :=
  ⟨(C7_transport_retry_and_http_no_retry scriptC7).1 1 400 (by omega)
     (by intro j hj; interval_cases j; rfl) (by decide) (by omega) (by omega),
   (C7_transport_retry_and_http_no_retry scriptC7).2.2.2 2⟩

theorem upcase_pySpace (c : Char) : pySpace (upcaseChar c) = pySpace c := by
  unfold upcaseChar
  cases hf : caseMap.find? (fun q => q.1 == c) with
  | none => rfl
  | some q =>
    have hm := List.mem_of_find?_eq_some hf
    have hp := List.find?_some hf
    simp only [beq_iff_eq] at hp
    subst hp
    fin_cases hm <;> decide

theorem upcase_idem (c : Char) : upcaseChar (upcaseChar c) = upcaseChar c := by
  cases hf : caseMap.find? (fun q => q.1 == c) with
  | none =>
    have h1 : upcaseChar c = c := by simp only [upcaseChar, hf]; rfl
    rw [h1, h1]
  | some q =>
    have hm := List.mem_of_find?_eq_some hf
    have h1 : upcaseChar c = q.2 := by simp only [upcaseChar, hf]; rfl
    rw [h1]
    fin_cases hm <;> decide

theorem stripL_head? (l : List Char) :
    ∀ c, (stripL l).head? = some c → pySpace c = false := by
  intro c hc
  obtain ⟨t, ht⟩ : stripL l <+: List.dropWhile pySpace l :=
    List.rdropWhile_prefix pySpace (List.dropWhile pySpace l)
  have hm : (List.dropWhile pySpace l).head? = some c := by
    rw [← ht, List.head?_append, hc]
    rfl
  have hmne : List.dropWhile pySpace l ≠ [] := by
    intro h
    rw [h] at hm
    exact Option.noConfusion hm
  have hv := List.head_dropWhile_not pySpace l hmne
  rw [List.head?_eq_head hmne] at hm
  rw [← Option.some_inj.mp hm]
  exact hv

theorem stripL_eq_self (l : List Char)
    (h1 : ∀ c, l.head? = some c → pySpace c = false)
    (h2 : ∀ c, l.getLast? = some c → pySpace c = false) : stripL l = l := by
  have hd : List.dropWhile pySpace l = l := by
    rcases l with _ | ⟨a, t⟩
    · rfl
    · rw [List.dropWhile_cons, h1 a rfl]
      simp
  show List.rdropWhile pySpace (List.dropWhile pySpace l) = l
  rw [hd, List.rdropWhile_eq_self_iff]
  intro hl
  have := h2 (l.getLast hl) (List.getLast?_eq_getLast _ hl)
  simp [this]

theorem upperL_eq_self (l : List Char) (h : ∀ c ∈ l, upcaseChar c = c) :
    l.map upcaseChar = l := by
  conv_rhs => rw [← List.map_id l]
  exact List.map_congr_left h

theorem mem_upperL_fixed {c : Char} {l : List Char} (hc : c ∈ l.map upcaseChar) :
    upcaseChar c = c := by
  rcases List.mem_map.mp hc with ⟨a, _, rfl⟩
  exact upcase_idem a

theorem upper_strip_head? (l : List Char) :
    ∀ c, ((stripL l).map upcaseChar).head? = some c → pySpace c = false := by
  intro c hc
  rw [List.head?_map] at hc
  rcases h2 : (stripL l).head? with _ | a
  · rw [h2] at hc
    exact Option.noConfusion hc
  · rw [h2] at hc
    simp only [Option.map_some'] at hc
    rw [← Option.some_inj.mp hc, upcase_pySpace]
    exact stripL_head? l a h2

theorem canon_fix (o : String)
    (hchars : ∀ c ∈ o.data, upcaseChar c = c)
    (hhead : ∀ c, o.data.head? = some c → pySpace c = false)
    (hlast : ∀ c, o.data.getLast? = some c → pySpace c = false) :
    pyUpper (pyStrip o) = o := by
  show (⟨(stripL o.data).map upcaseChar⟩ : String) = o
  rw [stripL_eq_self o.data hhead hlast, upperL_eq_self o.data hchars]

theorem pyEndsWith_iff (s suf : String) : pyEndsWith s suf = true ↔ suf.data <:+ s.data :=
  List.isSuffixOf_iff_suffix

theorem endsWith_append (t suf : String) : pyEndsWith (t ++ suf) suf = true := by
  rw [pyEndsWith_iff]
  show suf.data <:+ t.data ++ suf.data
  exact List.suffix_append _ _

theorem getLast?_of_endsWith {s suf : String} (h : pyEndsWith s suf = true)
    (hne : suf.data ≠ []) : s.data.getLast? = suf.data.getLast? := by
  obtain ⟨t, ht⟩ := (pyEndsWith_iff s suf).mp h
  rcases hlast : suf.data.getLast? with _ | c
  · rw [List.getLast?_eq_none_iff] at hlast
    exact absurd hlast hne
  · rw [← ht, List.getLast?_append, hlast]
    rfl

theorem normTail_chars (s : String) : ∀ c ∈ (normTail s).data, upcaseChar c = c := by
  intro c hc
  unfold normTail at hc
  split at hc
  · exact mem_upperL_fixed (List.take_subset _ _ hc)
  · exact mem_upperL_fixed hc

theorem normTail_head? (s : String) :
    ∀ c, (normTail s).data.head? = some c → pySpace c = false := by
  intro c hc
  unfold normTail at hc
  split at hc
  · simp only [pyDropRight, List.rdrop, List.head?_take] at hc
    split at hc
    · exact Option.noConfusion hc
    · exact upper_strip_head? s.data c hc
  · exact upper_strip_head? s.data c hc

theorem inner_umcbl (o : String) (h1 : o ≠ "") (h2 : pyUpper (pyStrip o) = o)
    (h3 : pyEndsWith o "_UMCBL" = true) : normalize_symbol o = o := by
  simp [normalize_symbol, h1, h2, h3]

theorem inner_plain (o : String) (h1 : o ≠ "") (h2 : pyUpper (pyStrip o) = o)
    (h3 : pyEndsWith o "_UMCBL" = false) (h4 : pyEndsWith o ".P" = false)
    (h5 : pyEndsWith o "USDT" = false) : normalize_symbol o = o := by
  simp [normalize_symbol, h1, h2, h3, h4, h5]

theorem umcbl_getLast {o : String} (h : pyEndsWith o "_UMCBL" = true) :
    ∀ c, o.data.getLast? = some c → pySpace c = false := by
  intro c hc
  rw [getLast?_of_endsWith h (by decide)] at hc
  have : (("_UMCBL" : String).data).getLast? = some 'L' := by decide
  rw [this] at hc
  rw [← Option.some_inj.mp hc]
  decide

theorem normalize_symbol_fix (s : String) (hne : normalize_symbol s ≠ "")
    (hp : pyEndsWith (normalize_symbol s) ".P" = false)
    (hlasth : ∀ c, (normalize_symbol s).data.getLast? = some c → pySpace c = false) :
    normalize_symbol (normalize_symbol s) = normalize_symbol s := by
  by_cases hs0 : s = ""
  · subst hs0; decide
  by_cases hA : pyEndsWith (pyUpper (pyStrip s)) "_UMCBL" = true
  · have ho : normalize_symbol s = pyUpper (pyStrip s) := by
      simp [normalize_symbol, hs0, hA]
    rw [ho] at hne hlasth ⊢
    refine inner_umcbl _ hne ?_ hA
    exact canon_fix _ (fun c hc => mem_upperL_fixed hc) (upper_strip_head? s.data) hlasth
  · have hA2 : pyEndsWith (pyUpper (pyStrip s)) "_UMCBL" = false := by
      simpa using hA
    have ho : normalize_symbol s
        = (if pyEndsWith (normTail s) "USDT" then normTail s ++ "_UMCBL" else normTail s) := by
      simp [normalize_symbol, normTail, hs0, hA2]
    by_cases hU : pyEndsWith (normTail s) "USDT" = true
    · have ho2 : normalize_symbol s = normTail s ++ "_UMCBL" := by rw [ho, if_pos hU]
      rw [ho2] at hne ⊢
      have htne : (normTail s).data ≠ [] := by
        intro h
        obtain ⟨w, hw⟩ := (pyEndsWith_iff _ _).mp hU
        rw [h] at hw
        exact absurd (List.append_eq_nil.mp hw).2 (by decide)
      refine inner_umcbl _ hne ?_ (endsWith_append _ _)
      apply canon_fix
      · intro c hc
        have hdata : (normTail s ++ "_UMCBL").data
            = (normTail s).data ++ ("_UMCBL" : String).data := rfl
        rw [hdata] at hc
        rcases List.mem_append.mp hc with hc | hc
        · exact normTail_chars s c hc
        · fin_cases hc <;> decide
      · intro c hc
        have hdata : (normTail s ++ "_UMCBL").data
            = (normTail s).data ++ ("_UMCBL" : String).data := rfl
        rw [hdata, List.head?_append] at hc
        rcases hh : (normTail s).data.head? with _ | a
        · rw [List.head?_eq_none_iff] at hh
          exact absurd hh htne
        · rw [hh] at hc
          have hca : c = a := by
            have hor : (some a).or (("_UMCBL" : String).data).head? = some a := rfl
            rw [hor] at hc
            exact (Option.some_inj.mp hc).symm
          rw [hca]
          exact normTail_head? s a hh
      · exact umcbl_getLast (endsWith_append _ _)
    · have hU2 : pyEndsWith (normTail s) "USDT" = false := by simpa using hU
      have ho2 : normalize_symbol s = normTail s := by rw [ho, if_neg hU]
      rw [ho2] at hne hp hlasth ⊢
      have hfix : pyUpper (pyStrip (normTail s)) = normTail s :=
        canon_fix _ (normTail_chars s) (normTail_head? s) hlasth
      by_cases hB : pyEndsWith (normTail s) "_UMCBL" = true
      · exact inner_umcbl _ hne hfix hB
      · exact inner_plain _ hne hfix (by simpa using hB) hp hU2

/-- C8 fails on the code: normalize_symbol is not idempotent on every
input — BTCUSDT.P.P normalizes to BTCUSDT.P, which normalizes further to
BTCUSDT_UMCBL. -/
theorem C8_counterexample :
    normalize_symbol (normalize_symbol "BTCUSDT.P.P") ≠ normalize_symbol "BTCUSDT.P.P" := by
  decide

/-- C8 as amended: BTCUSDT.P and BTCUSDT_UMCBL normalize to the same
canonical symbol, and normalize_symbol is idempotent on every input whose
normalized form is nonempty, does not end in .P, and does not end in a
whitespace character. -/
theorem C8_equal_and_conditional_idem (s : String) :
    normalize_symbol "BTCUSDT.P" = normalize_symbol "BTCUSDT_UMCBL" ∧
    (normalize_symbol s ≠ "" →
     pyEndsWith (normalize_symbol s) ".P" = false →
     pySpace ((normalize_symbol s).data.getLastD 'A') = false →
     normalize_symbol (normalize_symbol s) = normalize_symbol s) := by
  refine ⟨by decide, fun hne hp hlast => ?_⟩
  apply normalize_symbol_fix s hne hp
  intro c hc
  rwa [List.getLastD_eq_getLast?, hc, Option.getD_some] at hlast

/-- Witness for the amended C8 at the input ETHUSDT. -/
theorem C8_witness :
    normalize_symbol "BTCUSDT.P" = normalize_symbol "BTCUSDT_UMCBL" ∧
    normalize_symbol (normalize_symbol "ETHUSDT") = normalize_symbol "ETHUSDT" :=
  ⟨(C8_equal_and_conditional_idem "ETHUSDT").1,
   (C8_equal_and_conditional_idem "ETHUSDT").2 (by decide) (by decide) (by decide)⟩
